import Mathlib

/-!
Verification of the batch reader of the koordinates-base library
(`src/index.ts`): `readCSVInBatches`, `getRecordCount`, `csvToJson` and the
validating wrapper `getInitialDatasetInBatch`, shallowly embedded over a
file modelled as the list of lines that Node's `readline` would emit.
-/

namespace KoordinatesBase

/-- A parsed record: header field names paired positionally with field
values.  This models the plain object produced by papaparse in header mode
(`{header₀: value₀, header₁: value₁, …}`); extra row fields beyond the
header (papaparse's `__parsed_extra`) are not modelled, no claim needs them. -/
abbrev Rec := List (String × String)

/-- Field splitting of one delimited line, modelling the papaparse call made
by `csvToJson` (delimiter `,`, `quoteChar: '"'`).  Modelled from the spec:
papaparse is an external dependency, and the spec describes its use as
pairing "the line's delimited fields, honoring quoted fields that may
contain the delimiter".  The escaped-quote convention `""` is not modelled
(no claim exercises it).  State: remaining characters, inside-quotes flag,
current field, fields finished so far. -/
def splitFieldsAux : List Char → Bool → String → List String → List String
  | [], _, cur, acc => acc ++ [cur]
  | c :: cs, true, cur, acc =>
    if c = '"' then splitFieldsAux cs false cur acc
    else splitFieldsAux cs true (cur.push c) acc
  | c :: cs, false, cur, acc =>
    if c = '"' then splitFieldsAux cs true cur acc
    else if c = ',' then splitFieldsAux cs false "" (acc ++ [cur])
    else splitFieldsAux cs false (cur.push c) acc

/-- Split a line into its delimited fields. -/
def splitFields (line : String) : List String :=
  splitFieldsAux line.data false "" []

/-- Pair header fields positionally with a row's fields (papaparse header
mode keeps the keys for which a row field was parsed, i.e. the zip up to
the shorter length). -/
def zipRecord (headers row : String) : Rec :=
  (splitFields headers).zip (splitFields row)

/-- Model of `csvToJson` (src/index.ts:591-601): the source parses
`headers ++ "\n" ++ csv` with papaparse (`header: true`) and returns
`data[0]`.  Since the input always contains a newline, papaparse always
produces at least one data row after the header row (an empty `csv` line
yields the row `[""]`), so `data[0]` is always present and the result is
always `some`; the `json != null` guard at src/index.ts:549 is never
taken. -/
def csvToJson (headers csv : String) : Option Rec :=
  some (zipRecord headers csv)

/-- Model of `getRecordCount` (src/index.ts:507-528): count every line the
stream emits, then subtract one when the count is positive. -/
def getRecordCount (lines : List String) : Nat :=
  let count := lines.length
  if 0 < count then count - 1 else count

/-- The mutable state of one `readCSVInBatches` call: the records collected
so far, the captured header (`""` means "not yet seen", exactly the
sentinel the source uses), the data-line counter, and whether `rl.close()`
has been called. -/
structure ReadState where
  records : List Rec
  headers : String
  recordCount : Nat
  closed : Bool
deriving DecidableEq

/-- One `line` event of `readCSVInBatches` (src/index.ts:542-557).  After
`rl.close()` no further lines are processed.  Otherwise: an unset header is
assigned the row; else, a row whose zero-based index lies in
`[start, start+batch)` is parsed and appended, a row at index
`≥ start+batch` closes the stream, and the counter is incremented in every
non-header case. -/
def stepLine (start batch : Int) (st : ReadState) (row : String) : ReadState :=
  if st.closed then st
  else if st.headers = "" then { st with headers := row }
  else
    let st' :=
      if start ≤ (st.recordCount : Int) ∧ (st.recordCount : Int) < start + batch then
        match csvToJson st.headers row with
        | some json => { st with records := st.records ++ [json] }
        | none => st
      else if start + batch ≤ (st.recordCount : Int) then
        { st with closed := true }
      else st
    { st' with recordCount := st'.recordCount + 1 }

/-- Feed the file's lines, in order, through `stepLine`. -/
def runLines (start batch : Int) : ReadState → List String → ReadState
  | st, [] => st
  | st, row :: rest => runLines start batch (stepLine start batch st row) rest

/-- Model of `readCSVInBatches` (src/index.ts:530-567): run every line from
the initial state and resolve with the collected records. -/
def readCSVInBatches (lines : List String) (start batch : Int) : List Rec :=
  (runLines start batch ⟨[], "", 0, false⟩ lines).records

/-- The header string a `readCSVInBatches` call ends up using. -/
def capturedHeader (lines : List String) (start batch : Int) : String :=
  (runLines start batch ⟨[], "", 0, false⟩ lines).headers

/-- One line event of the reference reader from the spec: identical to
`stepLine` except that it never stops early — the whole file is scanned and
only the window `[start, start+batch)` is kept. -/
def stepLineFull (start batch : Int) (st : ReadState) (row : String) : ReadState :=
  if st.headers = "" then { st with headers := row }
  else
    let st' :=
      if start ≤ (st.recordCount : Int) ∧ (st.recordCount : Int) < start + batch then
        match csvToJson st.headers row with
        | some json => { st with records := st.records ++ [json] }
        | none => st
      else st
    { st' with recordCount := st'.recordCount + 1 }

/-- Feed the file's lines, in order, through `stepLineFull`. -/
def runLinesFull (start batch : Int) : ReadState → List String → ReadState
  | st, [] => st
  | st, row :: rest => runLinesFull start batch (stepLineFull start batch st row) rest

/-- The spec's reference reader for the early-stop claim: scan the whole
file and keep only the window. -/
def readCSVFullScan (lines : List String) (start batch : Int) : List Rec :=
  (runLinesFull start batch ⟨[], "", 0, false⟩ lines).records

/-- The first non-empty line of the file (or `""` when there is none): the
line the sentinel-based header capture actually ends up with. -/
def headerOf : List String → String
  | [] => ""
  | l :: ls => if l = "" then headerOf ls else l

/-- The lines following the captured header: everything after the first
non-empty line (empty when there is none). -/
def dataLinesOf : List String → List String
  | [] => []
  | l :: ls => if l = "" then dataLinesOf ls else ls

/-- The two API kinds of the library (src/index.ts:8-11). -/
inductive APIKind
  | WFS
  | WMTS
deriving DecidableEq

/-- The configuration fields of `KoordinatesDataset` that
`getInitialDatasetInBatch` consults. -/
structure DatasetConfig where
  apiKind : APIKind
  initialDataset : String
  initialDatasetTs : String
deriving DecidableEq

/-- The I/O steps `getInitialDatasetInBatch` can perform, recorded as a
trace: ensuring the dataset is downloaded, and reading the dataset file. -/
inductive Effect
  | download
  | readFile
deriving DecidableEq

/-- Model of `getInitialDatasetInBatch` (src/index.ts:455-479).  The `file`
argument stands for the line contents of `./datasets/<initialDataset>`;
the first component of the result is the trace of I/O performed.  JS string
truthiness (`Boolean(s)`) is nonemptiness.  The branch that only logs
"loading initial data from Koordinate website" resolves with `undefined`,
modelled as `Except.ok none`. -/
def getInitialDatasetInBatch (cfg : DatasetConfig) (file : List String)
    (start batch : Int) : List Effect × Except String (Option (List Rec)) :=
  if cfg.apiKind ≠ APIKind.WFS then
    ([], Except.error "Initial dataset is available for WFS (Web Feature Service) only.")
  else if batch ≤ 0 ∨ 100000 < batch then
    ([], Except.error "Batch size must be between 1 and 100000")
  else if cfg.initialDataset ≠ "" ∧ cfg.initialDatasetTs ≠ "" then
    ([Effect.download, Effect.readFile],
      Except.ok (some (readCSVInBatches file start batch)))
  else if cfg.initialDatasetTs ≠ "" then
    ([], Except.ok none)
  else
    ([], Except.error "Initial dataset timestamp cannot be empty")

/-! Helper lemmas about the run of the reader. -/

theorem runLines_closed (start batch : Int) (ls : List String) (st : ReadState)
    (h : st.closed = true) : runLines start batch st ls = st := by
  induction ls with
  | nil => rfl
  | cons row rest ih =>
      have hstep : stepLine start batch st row = st := by
        simp [stepLine, h]
      simp only [runLines, hstep]
      exact ih

theorem stepLine_headers (start batch : Int) (st : ReadState) (row : String)
    (h : st.headers ≠ "") : (stepLine start batch st row).headers = st.headers := by
  simp only [stepLine, csvToJson, if_neg h]
  split
  · rfl
  · dsimp only
    split
    · rfl
    · split <;> rfl

theorem runLines_headers (start batch : Int) (ls : List String) :
    ∀ st : ReadState, st.headers ≠ "" →
    (runLines start batch st ls).headers = st.headers := by
  induction ls with
  | nil => intro st _; rfl
  | cons row rest ih =>
      intro st h
      have hkeep := stepLine_headers start batch st row h
      simp only [runLines]
      rw [ih _ (by rw [hkeep]; exact h), hkeep]

theorem runLines_skip_header (start batch : Int) (ls : List String) :
    ∀ (r : List Rec) (c : Nat),
    runLines start batch ⟨r, "", c, false⟩ ls
      = runLines start batch ⟨r, headerOf ls, c, false⟩ (dataLinesOf ls) := by
  induction ls with
  | nil => intro r c; rfl
  | cons l rest ih =>
      intro r c
      by_cases hl : l = ""
      · subst hl
        have hstep : stepLine start batch ⟨r, "", c, false⟩ ""
            = ⟨r, "", c, false⟩ := by
          simp [stepLine]
        simp only [runLines, hstep, headerOf, dataLinesOf, if_pos rfl]
        exact ih r c
      · have hstep : stepLine start batch ⟨r, "", c, false⟩ l
            = ⟨r, l, c, false⟩ := by
          simp [stepLine]
        simp only [runLines, hstep, headerOf, dataLinesOf, if_neg hl]

theorem runLinesFull_skip_header (start batch : Int) (ls : List String) :
    ∀ (r : List Rec) (c : Nat),
    runLinesFull start batch ⟨r, "", c, false⟩ ls
      = runLinesFull start batch ⟨r, headerOf ls, c, false⟩ (dataLinesOf ls) := by
  induction ls with
  | nil => intro r c; rfl
  | cons l rest ih =>
      intro r c
      by_cases hl : l = ""
      · subst hl
        have hstep : stepLineFull start batch ⟨r, "", c, false⟩ ""
            = ⟨r, "", c, false⟩ := by
          simp [stepLineFull]
        simp only [runLinesFull, hstep, headerOf, dataLinesOf, if_pos rfl]
        exact ih r c
      · have hstep : stepLineFull start batch ⟨r, "", c, false⟩ l
            = ⟨r, l, c, false⟩ := by
          simp [stepLineFull]
        simp only [runLinesFull, hstep, headerOf, dataLinesOf, if_neg hl]

theorem stepLineFull_closed (start batch : Int) (st : ReadState) (row : String) :
    (stepLineFull start batch st row).closed = st.closed := by
  simp only [stepLineFull, csvToJson]
  split
  · rfl
  · dsimp only
    split <;> rfl

theorem runLinesFull_past (start batch : Int) (ls : List String) :
    ∀ st : ReadState, st.headers ≠ "" → start + batch ≤ (st.recordCount : Int) →
    (runLinesFull start batch st ls).records = st.records := by
  induction ls with
  | nil => intro st _ _; rfl
  | cons row rest ih =>
      intro st hh hc
      have hw : ¬(start ≤ (st.recordCount : Int) ∧
          (st.recordCount : Int) < start + batch) := by omega
      have hstep : stepLineFull start batch st row
          = { st with recordCount := st.recordCount + 1 } := by
        simp [stepLineFull, hh, hw]
      simp only [runLinesFull, hstep]
      exact ih _ (by simpa using hh) (by push_cast; omega)

theorem runLinesFull_records (start batch : Int) (hb : 0 < batch) (h : String)
    (hh : h ≠ "") (ls : List String) :
    ∀ (r : List Rec) (c : Nat),
    (runLinesFull start batch ⟨r, h, c, false⟩ ls).records
      = r ++ ((ls.take ((start + batch - c).toNat)).drop ((start - c).toNat)).map
          (zipRecord h) := by
  induction ls with
  | nil => intro r c; simp [runLinesFull]
  | cons row rest ih =>
      intro r c
      by_cases hw : start ≤ (c : Int) ∧ (c : Int) < start + batch
      · have hstep : stepLineFull start batch ⟨r, h, c, false⟩ row
            = ⟨r ++ [zipRecord h row], h, c + 1, false⟩ := by
          simp [stepLineFull, hh, hw, csvToJson]
        simp only [runLinesFull, hstep]
        rw [ih]
        have h1 : (start - (c : Int)).toNat = 0 := by omega
        have h2 : (start - ((c + 1 : Nat) : Int)).toNat = 0 := by push_cast; omega
        have h3 : (start + batch - (c : Int)).toNat
            = (start + batch - ((c + 1 : Nat) : Int)).toNat + 1 := by push_cast; omega
        rw [h1, h2, h3]
        simp [List.take_succ_cons]
      · have hstep : stepLineFull start batch ⟨r, h, c, false⟩ row
            = ⟨r, h, c + 1, false⟩ := by
          simp [stepLineFull, hh, hw]
        simp only [runLinesFull, hstep]
        rw [ih]
        rcases (by omega : (c : Int) < start ∨ start + batch ≤ (c : Int)) with hlt | hge
        · have h1 : (start - (c : Int)).toNat
              = (start - ((c + 1 : Nat) : Int)).toNat + 1 := by push_cast; omega
          have h3 : (start + batch - (c : Int)).toNat
              = (start + batch - ((c + 1 : Nat) : Int)).toNat + 1 := by push_cast; omega
          rw [h1, h3]
          simp [List.take_succ_cons, List.drop_succ_cons]
        · have h1 : (start + batch - (c : Int)).toNat = 0 := by omega
          have h3 : (start + batch - ((c + 1 : Nat) : Int)).toNat = 0 := by push_cast; omega
          rw [h1, h3]
          simp

theorem runLines_eq_runLinesFull (start batch : Int) (ls : List String) :
    ∀ st : ReadState, st.closed = false →
    (runLines start batch st ls).records = (runLinesFull start batch st ls).records := by
  induction ls with
  | nil => intro st _; rfl
  | cons row rest ih =>
      intro st hcl
      by_cases hh : st.headers = ""
      · have h1 : stepLine start batch st row = { st with headers := row } := by
          simp [stepLine, hcl, hh]
        have h2 : stepLineFull start batch st row = { st with headers := row } := by
          simp [stepLineFull, hh]
        simp only [runLines, runLinesFull, h1, h2]
        exact ih _ hcl
      · by_cases hpast : start + batch ≤ (st.recordCount : Int)
        · have hw : ¬(start ≤ (st.recordCount : Int) ∧
              (st.recordCount : Int) < start + batch) := by omega
          have h1 : stepLine start batch st row
              = { st with closed := true, recordCount := st.recordCount + 1 } := by
            simp [stepLine, hcl, hh, hw, hpast]
          have h2 : stepLineFull start batch st row
              = { st with recordCount := st.recordCount + 1 } := by
            simp [stepLineFull, hh, hw]
          simp only [runLines, runLinesFull, h1, h2]
          rw [runLines_closed _ _ _ _ rfl]
          rw [runLinesFull_past _ _ _ _ (by simpa using hh) (by push_cast; omega)]
        · have h1 : stepLine start batch st row = stepLineFull start batch st row := by
            simp [stepLine, stepLineFull, hcl, hh, hpast]
          simp only [runLines, runLinesFull, h1]
          exact ih _ (by rw [stepLineFull_closed]; exact hcl)

theorem dataLinesOf_length_le (ls : List String) :
    (dataLinesOf ls).length ≤ ls.length - 1 := by
  induction ls with
  | nil => simp [dataLinesOf]
  | cons l rest ih =>
      by_cases hl : l = ""
      · simp only [dataLinesOf, if_pos hl, List.length_cons]
        omega
      · simp only [dataLinesOf, if_neg hl, List.length_cons]
        omega

theorem dataLinesOf_eq_nil (ls : List String) (h : headerOf ls = "") :
    dataLinesOf ls = [] := by
  induction ls with
  | nil => rfl
  | cons l rest ih =>
      by_cases hl : l = ""
      · simp only [headerOf, if_pos hl] at h
        simp only [dataLinesOf, if_pos hl]
        exact ih h
      · simp only [headerOf, if_neg hl] at h
        exact absurd h hl

/-- The central characterization: a `readCSVInBatches` call returns exactly
the window `[start, start+batch)` of the lines after the captured header,
in file order, each paired with the captured header. -/
theorem readCSVInBatches_eq_slice (lines : List String) (start batch : Int)
    (hs : 0 ≤ start) (hb : 0 < batch) :
    readCSVInBatches lines start batch
      = (((dataLinesOf lines).drop start.toNat).take batch.toNat).map
          (zipRecord (headerOf lines)) := by
  unfold readCSVInBatches
  rw [runLines_eq_runLinesFull _ _ _ _ rfl, runLinesFull_skip_header]
  by_cases hh : headerOf lines = ""
  · rw [dataLinesOf_eq_nil _ hh]
    simp [runLinesFull]
  · rw [runLinesFull_records start batch hb _ hh]
    have h1 : (start - ((0 : Nat) : Int)).toNat = start.toNat := by push_cast; omega
    have h2 : (start + batch - ((0 : Nat) : Int)).toNat
        = start.toNat + batch.toNat := by push_cast; omega
    rw [h1, h2, ← List.take_drop]
    simp

theorem getRecordCount_eq (lines : List String) :
    getRecordCount lines = lines.length - 1 := by
  cases lines <;> simp [getRecordCount]

/-! Claim theorems. -/

/-- C1 counterexample: the length formula fails on a file whose first line
is empty.  On `["", "x"]` the sentinel-based header capture consumes `"x"`
(the sole data line per the claim) as the header, so the call returns no
records although `min(batch, total_records - start) = min(1, 1 - 0) = 1`. -/
theorem c1_length_counterexample :
    ¬ ((readCSVInBatches ["", "x"] 0 1).length
        = min ((1 : Int).toNat) (getRecordCount ["", "x"] - (0 : Int).toNat)) := by
  decide

/-- C1 (amended): for every file whose first line is not empty (or which is
empty altogether), and every valid pair (start ≥ 0, 0 < batch ≤ 100000),
the sequence returned by `readCSVInBatches` has length
`min(batch, total_records - start)` clamped to be ≥ 0 (in particular
length ≤ batch), where `total_records` is the number of lines after the
header. -/
theorem c1_batch_length (lines : List String) (start batch : Int)
    (hs : 0 ≤ start) (hb : 0 < batch) (hb2 : batch ≤ 100000)
    (hfirst : lines.head? ≠ some "") :
    (readCSVInBatches lines start batch).length
      = min batch.toNat (getRecordCount lines - start.toNat) := by
  cases lines with
  | nil =>
      simp [readCSVInBatches, runLines, getRecordCount]
  | cons l rest =>
      have hl : l ≠ "" := by
        intro he
        exact hfirst (by simp [he])
      rw [readCSVInBatches_eq_slice _ _ _ hs hb]
      have hdl : dataLinesOf (l :: rest) = rest := by
        simp [dataLinesOf, hl]
      rw [hdl, getRecordCount_eq]
      simp only [List.length_map, List.length_take, List.length_drop,
        List.length_cons]
      omega

/-- C1 witness. -/
theorem c1_batch_length_witness :
    (readCSVInBatches ["id,name", "1,Alice", "2,Bob"] 1 2).length
      = min ((2 : Int).toNat)
          (getRecordCount ["id,name", "1,Alice", "2,Bob"] - (1 : Int).toNat) :=
  c1_batch_length ["id,name", "1,Alice", "2,Bob"] 1 2 (by decide) (by decide)
    (by decide) (by decide)

/-- C2: `getRecordCount` returns the total number of lines minus 1 for a
non-empty file, and 0 for an empty or header-only file; the header line is
never included in the count. -/
theorem c2_record_count (lines : List String) :
    (lines ≠ [] → getRecordCount lines = lines.length - 1) ∧
    (lines.length ≤ 1 → getRecordCount lines = 0) := by
  constructor
  · intro _
    exact getRecordCount_eq lines
  · intro h
    rw [getRecordCount_eq]
    omega

/-- C2 witness. -/
theorem c2_record_count_witness :
    getRecordCount ["id,name", "1,Alice", "2,Bob"]
        = (["id,name", "1,Alice", "2,Bob"] : List String).length - 1 ∧
    getRecordCount ["id,name"] = 0 :=
  ⟨(c2_record_count ["id,name", "1,Alice", "2,Bob"]).1 (by decide),
    (c2_record_count ["id,name"]).2 (by decide)⟩

/-- C3 counterexample: the first line encountered is not always the
captured header.  On `["", "a,b", "1,2"]` the first line is `""`, but the
empty-string sentinel makes the reader treat the second line `"a,b"` as the
header, so the captured header differs from the first line and only one of
the two lines after the first is returned as a record. -/
theorem c3_header_counterexample :
    capturedHeader ["", "a,b", "1,2"] 0 10 ≠ ""
      ∧ (readCSVInBatches ["", "a,b", "1,2"] 0 10).length = 1 := by
  decide

/-- C3 (amended): the first NON-empty line encountered is captured as the
header; neither it nor any empty line preceding it is ever counted as a
record or emitted — every returned record is parsed from the lines strictly
after the captured header.  In particular, when the first line is
non-empty, it is the header. -/
theorem c3_header_capture (lines : List String) (start batch : Int)
    (hs : 0 ≤ start) (hb : 0 < batch) :
    capturedHeader lines start batch = headerOf lines ∧
    readCSVInBatches lines start batch
      = (((dataLinesOf lines).drop start.toNat).take batch.toNat).map
          (zipRecord (headerOf lines)) := by
  constructor
  · unfold capturedHeader
    rw [runLines_skip_header]
    by_cases hh : headerOf lines = ""
    · rw [dataLinesOf_eq_nil _ hh, hh]
      rfl
    · exact runLines_headers _ _ _ _ hh
  · exact readCSVInBatches_eq_slice _ _ _ hs hb

/-- C3 witness. -/
theorem c3_header_capture_witness :
    capturedHeader ["id,name", "1,Alice"] 0 1 = headerOf ["id,name", "1,Alice"] ∧
    readCSVInBatches ["id,name", "1,Alice"] 0 1
      = (((dataLinesOf ["id,name", "1,Alice"]).drop (0 : Int).toNat).take
          (1 : Int).toNat).map (zipRecord (headerOf ["id,name", "1,Alice"])) :=
  c3_header_capture ["id,name", "1,Alice"] 0 1 (by decide) (by decide)

/-- C4: early stopping is an optimization only — for every file and valid
(start, batch), the early-stopping reader returns exactly the same records
as the reference reader that scans the whole file and keeps only the window
[start, start+batch). -/
theorem c4_early_stop (lines : List String) (start batch : Int)
    (_hs : 0 ≤ start) (_hb : 0 < batch) (_hb2 : batch ≤ 100000) :
    readCSVInBatches lines start batch = readCSVFullScan lines start batch := by
  unfold readCSVInBatches readCSVFullScan
  exact runLines_eq_runLinesFull start batch lines _ rfl

/-- C4 witness. -/
theorem c4_early_stop_witness :
    readCSVInBatches ["id,name", "1,Alice", "2,Bob"] 0 1
      = readCSVFullScan ["id,name", "1,Alice", "2,Bob"] 0 1 :=
  c4_early_stop ["id,name", "1,Alice", "2,Bob"] 0 1 (by decide) (by decide)
    (by decide)

/-- C6: for every batch value with batch ≤ 0 or batch > 100000,
`getInitialDatasetInBatch` produces an error without performing any file
I/O or download, for every start value and every configuration. -/
theorem c6_invalid_batch (cfg : DatasetConfig) (file : List String)
    (start batch : Int) (hb : batch ≤ 0 ∨ 100000 < batch) :
    (getInitialDatasetInBatch cfg file start batch).1 = [] ∧
    ∃ msg, (getInitialDatasetInBatch cfg file start batch).2
        = Except.error msg := by
  unfold getInitialDatasetInBatch
  by_cases hk : cfg.apiKind ≠ APIKind.WFS
  · rw [if_pos hk]
    exact ⟨rfl, _, rfl⟩
  · rw [if_neg hk, if_pos hb]
    exact ⟨rfl, _, rfl⟩

/-- C6 witness. -/
theorem c6_invalid_batch_witness :
    (getInitialDatasetInBatch ⟨APIKind.WFS, "x.csv", "2020-01-01"⟩ [] 0 0).1 = [] ∧
    ∃ msg, (getInitialDatasetInBatch ⟨APIKind.WFS, "x.csv", "2020-01-01"⟩ [] 0 0).2
        = Except.error msg :=
  c6_invalid_batch ⟨APIKind.WFS, "x.csv", "2020-01-01"⟩ [] 0 0
    (Or.inl (by decide))

/-- C7: the returned records are exactly the window [start, start+batch)
of the data lines, in file order (first conjunct); and when start is at or
beyond the file's data extent the result is empty rather than an error
(second conjunct). -/
theorem c7_window (lines : List String) (start batch : Int)
    (hs : 0 ≤ start) (hb : 0 < batch) :
    readCSVInBatches lines start batch
      = (((dataLinesOf lines).drop start.toNat).take batch.toNat).map
          (zipRecord (headerOf lines)) ∧
    ((getRecordCount lines : Int) ≤ start →
      readCSVInBatches lines start batch = []) := by
  have hchar := readCSVInBatches_eq_slice lines start batch hs hb
  refine ⟨hchar, fun hbeyond => ?_⟩
  rw [hchar]
  have h1 := dataLinesOf_length_le lines
  have h2 := getRecordCount_eq lines
  have hlen : (dataLinesOf lines).length ≤ start.toNat := by omega
  rw [List.drop_eq_nil_of_le hlen]
  simp

/-- C7 witness. -/
theorem c7_window_witness :
    readCSVInBatches ["id,name", "1,Alice"] 5 1
      = (((dataLinesOf ["id,name", "1,Alice"]).drop (5 : Int).toNat).take
          (1 : Int).toNat).map (zipRecord (headerOf ["id,name", "1,Alice"])) ∧
    ((getRecordCount ["id,name", "1,Alice"] : Int) ≤ 5 →
      readCSVInBatches ["id,name", "1,Alice"] 5 1 = []) :=
  c7_window ["id,name", "1,Alice"] 5 1 (by decide) (by decide)

/-- C8: on the concrete file with header `id,name` and data lines `1,Alice`
and `2,Bob`, the call (start=0, batch=1) returns exactly the record pairing
id with 1 and name with Alice, the call (start=1, batch=10) returns exactly
the record pairing id with 2 and name with Bob, and the count operation
returns 2. -/
theorem c8_scenario :
    readCSVInBatches ["id,name", "1,Alice", "2,Bob"] 0 1
        = [[("id", "1"), ("name", "Alice")]] ∧
    readCSVInBatches ["id,name", "1,Alice", "2,Bob"] 1 10
        = [[("id", "2"), ("name", "Bob")]] ∧
    getRecordCount ["id,name", "1,Alice", "2,Bob"] = 2 := by
  decide

/-- C9: a quoted field containing the delimiter survives as a single
field: on the file with header `id,note` and data line `1,"a,b"` the reader
yields the record pairing id with 1 and note with the field a,b; and
`csvToJson` pairs header fields positionally with the line's delimited
fields. -/
theorem c9_quoted_delimiter :
    readCSVInBatches ["id,note", "1,\"a,b\""] 0 10
        = [[("id", "1"), ("note", "a,b")]] ∧
    csvToJson "id,note" "1,\"a,b\"" = some [("id", "1"), ("note", "a,b")] := by
  decide

/-- C10 counterexample: the timestamp error is NOT thrown only when both
`initialDataset` and `initialDatasetTs` are empty — with apiKind WFS,
a valid batch, a NON-empty `initialDataset` and an empty
`initialDatasetTs`, the call still throws the timestamp error. -/
theorem c10_counterexample :
    (⟨APIKind.WFS, "file.csv", ""⟩ : DatasetConfig).initialDataset ≠ "" ∧
    (getInitialDatasetInBatch ⟨APIKind.WFS, "file.csv", ""⟩ [] 0 1).2
        = Except.error "Initial dataset timestamp cannot be empty" := by
  constructor
  · decide
  · rfl

/-- C10 (amended): with apiKind WFS and a valid batch, when
`initialDataset` is empty and `initialDatasetTs` is non-empty the call
neither throws nor reads any file and resolves with no record list; and
the timestamp error is thrown exactly when `initialDatasetTs` is empty,
regardless of `initialDataset` — when `initialDatasetTs` is non-empty and
`initialDataset` is non-empty the call takes the download-and-read branch
and succeeds, so no timestamp error arises in any branch with a non-empty
timestamp. -/
theorem c10_ts_branches (file : List String) (start batch : Int)
    (ds ts : String) (hb1 : 0 < batch) (hb2 : batch ≤ 100000) :
    (ds = "" → ts ≠ "" →
      getInitialDatasetInBatch ⟨APIKind.WFS, ds, ts⟩ file start batch
        = ([], Except.ok none)) ∧
    (ds ≠ "" → ts ≠ "" →
      getInitialDatasetInBatch ⟨APIKind.WFS, ds, ts⟩ file start batch
        = ([Effect.download, Effect.readFile],
            Except.ok (some (readCSVInBatches file start batch)))) ∧
    (ts = "" →
      getInitialDatasetInBatch ⟨APIKind.WFS, ds, ts⟩ file start batch
        = ([], Except.error "Initial dataset timestamp cannot be empty")) := by
  have hb : ¬(batch ≤ 0 ∨ 100000 < batch) := by omega
  refine ⟨?_, ?_, ?_⟩
  · intro hds hts
    simp [getInitialDatasetInBatch, hb, hds, hts]
  · intro hds hts
    simp [getInitialDatasetInBatch, hb, hds, hts]
  · intro hts
    simp [getInitialDatasetInBatch, hb, hts]

/-- C10 witness. -/
theorem c10_ts_branches_witness :
    getInitialDatasetInBatch ⟨APIKind.WFS, "", "2024-01-01"⟩ [] 0 1
      = ([], Except.ok none) :=
  (c10_ts_branches [] 0 1 "" "2024-01-01" (by decide) (by decide)).1 rfl
    (by decide)

end KoordinatesBase
